import Mathlib

/-!
Verification of the client-side portfolio script (`src/app.js`).

The script is shallowly embedded: DOM element state is explicit data
(`Option` models absent elements, `none`-valued fields model absent JSON
properties / `undefined`), the markup strings built by the renderers are
reproduced verbatim, and JS exceptions are modelled by an explicit
"threw" flag or `Except Unit`.  All definitions are executable.
-/

/-- JS whitespace characters relevant to `String.prototype.trim` and the
`\s` regex class (ASCII subset; the script only compares characters
against this class, so the exact extent of the Unicode class does not
affect any statement below). -/
def isJsWhitespace (c : Char) : Bool :=
  c == ' ' || c == '\t' || c == '\n' || c == '\r' || c == '\x0b' || c == '\x0c'

/-- One character of the `[^\s@]` class in the email regex of
`validateForm` (`src/app.js` line 160). -/
def isEmailChar (c : Char) : Bool :=
  !isJsWhitespace c && !(c == '@')

/-- `String.prototype.trim` on a character list: leading and trailing
whitespace removed. -/
def jsTrimL (l : List Char) : List Char :=
  ((l.dropWhile isJsWhitespace).reverse.dropWhile isJsWhitespace).reverse

/-- `String.prototype.trim`. -/
def jsTrimS (s : String) : String :=
  String.mk (jsTrimL s.data)

/-- Matcher for the email regex `/^[^\s@]+@[^\s@]+\.[^\s@]+$/`
(`src/app.js` line 160).  Since `[^\s@]` cannot match `@`, the first run
of `[^\s@]+` extends exactly to the first character outside the class,
which must be the literal `@`; the remainder must consist of `[^\s@]`
characters and contain a `.` that is neither its first nor its last
character (the two `[^\s@]+` pieces around `\.` are non-empty, and `.`
itself lies in `[^\s@]`). -/
def emailRegexMatch (s : List Char) : Bool :=
  match s.dropWhile isEmailChar with
  | [] => false
  | ch :: domain =>
    ch == '@'
      && !(s.takeWhile isEmailChar).isEmpty
      && domain.all isEmailChar
      && ((domain.drop 1).dropLast.contains '.')

/-- The email pattern as the claim states it: one-or-more
non-whitespace-non-`@` characters, one `@`, one-or-more such characters,
then a `.` followed by one-or-more such characters (the pieces around the
dot may themselves contain further dots, so the domain holds at least one
dot). -/
def EmailPattern (s : List Char) : Prop :=
  ∃ a b c : List Char,
    s = a ++ '@' :: (b ++ '.' :: c) ∧
    a ≠ [] ∧ b ≠ [] ∧ c ≠ [] ∧
    a.all isEmailChar = true ∧ b.all isEmailChar = true ∧ c.all isEmailChar = true

/-- `validateForm` (`src/app.js` lines 151-172).  `clearFormErrors` wipes
the previous error decorations, so every call starts from an empty error
list; each of the three checks runs unconditionally and appends at most
one `(field id, message)` pair; the returned flag is `false` as soon as
any check failed. -/
def validateForm (name email message : String) : Bool × List (String × String) :=
  let acc : Bool × List (String × String) := (true, [])
  let acc :=
    if name.length < 2 then
      (false, acc.2 ++ [("name", "Enter at least 2 characters")])
    else acc
  let acc :=
    if emailRegexMatch email.data then acc
    else (false, acc.2 ++ [("email", "Enter a valid email")])
  let acc :=
    if message.length < 10 then
      (false, acc.2 ++ [("message", "Message too short")])
    else acc
  acc

/-- Decides whether the first list is a prefix of the second. -/
def listStartsWith : List Char → List Char → Bool
  | [], _ => true
  | _ :: _, [] => false
  | a :: as, b :: bs => a == b && listStartsWith as bs

/-- Decides whether the first list occurs contiguously inside the second. -/
def hasSubstr (n : List Char) : List Char → Bool
  | [] => n.isEmpty
  | c :: t => listStartsWith n (c :: t) || hasSubstr n t

/-- The markup string `h` contains the string `n` verbatim, character for
character, as a contiguous run. -/
def ContainsSubstr (h n : String) : Prop :=
  hasSubstr n.data h.data = true

/-- Concatenation of a list of strings; models `Array.prototype.join('')`
at the call site in `renderProjects` (`src/app.js` line 272). -/
def joinAll : List String → String
  | [] => ""
  | s :: r => s ++ joinAll r

/-- A skill record of the embedded JSON (`siteData.skills[i]`).  `level`
is a JSON number; the script never checks its range. -/
structure Skill where
  name : String
  level : Int
deriving DecidableEq

/-- A project record (`siteData.projects[i]`).  `tech` is `Option`al
because the script reads `proj.tech.split(',')` without a guard, so its
absence is observable (a thrown `TypeError`). -/
structure Project where
  title : String
  description : String
  image : String
  repo : String
  live : String
  tech : Option String
deriving DecidableEq

/-- A social-link record (`siteData.socialLinks[i]`). -/
structure SocialLink where
  platform : String
  url : String
deriving DecidableEq

/-- The top-level embedded JSON document.  Every field is optional: a
missing JSON property reads as `undefined`. -/
structure SiteData where
  name : Option String
  role : Option String
  tagline : Option String
  bio : Option String
  email : Option String
  location : Option String
  skills : Option (List Skill)
  projects : Option (List Project)
  socialLinks : Option (List SocialLink)
deriving DecidableEq

/-- `siteData = {}` — the initial value of the global (`src/app.js`
line 9), kept when loading fails. -/
def emptySiteData : SiteData :=
  { name := none, role := none, tagline := none, bio := none, email := none,
    location := none, skills := none, projects := none, socialLinks := none }

/-- The three possible states of the `#site-data` script element read by
`loadSiteData`: missing (or empty `textContent`), present but not valid
JSON (`JSON.parse` throws), or well-formed. -/
inductive EmbeddedData where
  | absent
  | malformed
  | wellFormed (d : SiteData)

/-- `loadSiteData` (`src/app.js` lines 27-36): returns the resulting
value of the `siteData` global together with whether `console.error` was
called.  A parse failure is caught inside the function, leaving
`siteData` at `{}`. -/
def loadSiteData : EmbeddedData → SiteData × Bool
  | EmbeddedData.absent => (emptySiteData, false)
  | EmbeddedData.malformed => (emptySiteData, true)
  | EmbeddedData.wellFormed d => (d, false)

/-- A value produced by the JS property read `map[platform]` in
`getSocialIcon`: a string from the object literal (or the fallback
glyph), a function member inherited from `Object.prototype`, or — for
the name `__proto__` — the inherited accessor's result, which is the
`Object.prototype` object itself. -/
inductive JsValue where
  | str (s : String)
  | protoMember (name : String)
  | protoObject
deriving DecidableEq

/-- The object literal of `getSocialIcon` (`src/app.js` lines 309-314). -/
def socialIconOwn : List (String × String) :=
  [("GitHub", "🐱"), ("LinkedIn", "💼"), ("Twitter", "🐦"), ("Instagram", "📷")]

/-- Function-valued property names every plain JS object literal inherits
from `Object.prototype` in a browser host: the seven standard members
plus the four Annex B legacy accessor-definition members.  A lookup
`map[p]` for such `p` yields the inherited function — a truthy value —
so `map[p] || fallback` does not fall back.  The remaining inherited
name, `__proto__`, is an accessor whose read yields `Object.prototype`
itself (an object, also truthy) and is handled separately in
`getSocialIcon`. -/
def objectPrototypeProps : List String :=
  ["constructor", "hasOwnProperty", "isPrototypeOf", "propertyIsEnumerable",
   "toLocaleString", "toString", "valueOf",
   "__defineGetter__", "__defineSetter__", "__lookupGetter__", "__lookupSetter__"]

/-- `getSocialIcon` (`src/app.js` lines 308-316): `map[platform] || '🔗'`.
The object-literal lookup consults the prototype chain, so names in
`objectPrototypeProps` return the inherited (truthy) function member, and
`__proto__` returns the (truthy) `Object.prototype` object, instead of
falling through to the glyph. -/
def getSocialIcon (platform : String) : JsValue :=
  match (socialIconOwn.find? (fun kv => kv.1 == platform)).map (fun kv => kv.2) with
  | some icon => JsValue.str icon
  | none =>
    if objectPrototypeProps.contains platform then JsValue.protoMember platform
    else if platform == "__proto__" then JsValue.protoObject
    else JsValue.str ("🔗")

/-- How a `JsValue` prints when interpolated into a template literal: an
inherited prototype function stringifies to its source form, and the
`Object.prototype` object stringifies via `Object.prototype.toString`. -/
def jsValueToString : JsValue → String
  | JsValue.str s => s
  | JsValue.protoMember n => "function " ++ (n ++ "() \x7b [native code] \x7d")
  | JsValue.protoObject => "[object Object]"

/-- The markup string inserted per skill by `renderSkills` (`src/app.js`
lines 252-262), reproduced verbatim (right-nested so each interpolated
field is in evidence). -/
def skillItemHTML (s : Skill) : String :=
  "\n      <div class=\"skill\">\n        <div class=\"skill__header\">\n          <span class=\"skill__name\">"
  ++ (s.name
  ++ ("</span>\n          <span class=\"skill__percentage\">"
  ++ (toString s.level
  ++ ("%"
  ++ ("</span>\n        </div>\n        <div class=\"skill__bar\">\n          <div class=\"skill__progress\" data-level=\""
  ++ (toString s.level
  ++ "\"></div>\n        </div>\n      </div>\n    "))))))

/-- The parsed result of inserting `skillItemHTML`: the progress-fill
element carries the `data-level` attribute and no inline `width` style
(the template sets none; only `animateSkillBars` assigns widths). -/
structure SkillElem where
  markup : String
  dataLevel : String
  widthStyle : Option String
deriving DecidableEq

def mkSkillElem (s : Skill) : SkillElem :=
  { markup := skillItemHTML s, dataLevel := toString s.level, widthStyle := none }

/-- `renderSkills` (`src/app.js` lines 247-264): missing container ⇒
no-op; otherwise `innerHTML = ''` wipes previous content and one element
per skill is appended in order. -/
def renderSkills (list : List Skill) (container : Option (List SkillElem)) :
    Option (List SkillElem) :=
  match container with
  | none => none
  | some _ => some (list.map mkSkillElem)

def splitCommaAux (cur : List Char) : List Char → List (List Char)
  | [] => [cur.reverse]
  | c :: rest =>
    if c == ',' then cur.reverse :: splitCommaAux [] rest
    else splitCommaAux (c :: cur) rest

/-- JS `String.prototype.split(',')`: splits at every comma, keeping
empty segments (the empty string yields `[""]`). -/
def jsSplitComma (s : String) : List String :=
  (splitCommaAux [] s.data).map String.mk

def techTagSpanL : String := "<span class=\"project__tech-tag\">"

def techTagSpanR : String := "</span>"

/-- The tag markup of `renderProjects` (`src/app.js` line 272):
`proj.tech.split(',').map(t => ...${t.trim()}...).join('')`. -/
def projectTagsHTML (tech : String) : String :=
  joinAll ((jsSplitComma tech).map fun t => techTagSpanL ++ (jsTrimS t ++ techTagSpanR))

/-- The markup string inserted per project by `renderProjects`
(`src/app.js` lines 273-286), reproduced verbatim. -/
def projectItemHTML (p : Project) (tech : String) : String :=
  "\n      <div class=\"project\">\n        <img src=\""
  ++ (p.image
  ++ ("\" alt=\""
  ++ (p.title
  ++ ("\" class=\"project__image\" loading=\"lazy\">\n        <div class=\"project__content\">\n          <h3 class=\"project__title\">"
  ++ (p.title
  ++ ("</h3>\n          <p class=\"project__description\">"
  ++ (p.description
  ++ ("</p>\n          <div class=\"project__tech\">"
  ++ (projectTagsHTML tech
  ++ ("</div>\n          <div class=\"project__actions\">\n            <a href=\""
  ++ (p.repo
  ++ ("\" target=\"_blank\" rel=\"noopener noreferrer\" class=\"project__link project__link--secondary\">View Code</a>\n            <a href=\""
  ++ (p.live
  ++ "\" target=\"_blank\" rel=\"noopener noreferrer\" class=\"project__link project__link--primary\">Live Demo</a>\n          </div>\n        </div>\n      </div>\n    ")))))))))))))

/-- The `forEach` body of `renderProjects`: appends one card per project
to the accumulated container content, stopping with a thrown `TypeError`
(second component `true`) at the first project whose `tech` is absent
(`proj.tech.split` on `undefined`). -/
def renderProjectsGo : List Project → List String → List String × Bool
  | [], acc => (acc, false)
  | p :: rest, acc =>
    match p.tech with
    | none => (acc, true)
    | some t => renderProjectsGo rest (acc ++ [projectItemHTML p t])

/-- `renderProjects` (`src/app.js` lines 266-288): missing container ⇒
no-op; otherwise content is cleared and rebuilt; the Bool reports whether
the call threw. -/
def renderProjects (list : List Project) (container : Option (List String)) :
    Option (List String) × Bool :=
  match container with
  | none => (none, false)
  | some _ =>
    let r := renderProjectsGo list []
    (some r.1, r.2)

/-- The per-container anchor class chosen by
`wrapper.id.includes('footer')` (`src/app.js` line 299). -/
def socialLinkClass (isFooter : Bool) : String :=
  if isFooter then ("footer__social-link") else ("contact__social-link")

/-- The markup string inserted per social link by `renderSocial`
(`src/app.js` lines 298-303), reproduced verbatim. -/
def socialItemHTML (isFooter : Bool) (l : SocialLink) : String :=
  "\n        <a href=\""
  ++ (l.url
  ++ ("\" target=\"_blank\" rel=\"noopener noreferrer\" class=\""
  ++ ((if isFooter then ("footer__social-link") else ("contact__social-link"))
  ++ ("\">\n          <span aria-hidden=\"true\">"
  ++ (jsValueToString (getSocialIcon l.platform)
  ++ ("</span>\n          <span>"
  ++ (l.platform
  ++ "</span>\n        </a>\n      ")))))))

/-- The part of a social item before the container-dependent class. -/
def socialItemFront (l : SocialLink) : String :=
  "\n        <a href=\""
  ++ (l.url
  ++ "\" target=\"_blank\" rel=\"noopener noreferrer\" class=\"")

/-- The part of a social item after the container-dependent class. -/
def socialItemBack (l : SocialLink) : String :=
  "\">\n          <span aria-hidden=\"true\">"
  ++ (jsValueToString (getSocialIcon l.platform)
  ++ ("</span>\n          <span>"
  ++ (l.platform
  ++ "</span>\n        </a>\n      ")))

/-- `renderSocial` (`src/app.js` lines 290-306): both wrappers (contact
list and footer list) are cleared and filled from the same `links`
sequence; a missing wrapper is skipped. -/
def renderSocial (links : List SocialLink)
    (contactW footerW : Option (List String)) :
    Option (List String) × Option (List String) :=
  (match contactW with
   | none => none
   | some _ => some (links.map (socialItemHTML false)),
   match footerW with
   | none => none
   | some _ => some (links.map (socialItemHTML true)))

/-- `setText` (`src/app.js` lines 242-245): the element's text changes
only if the element exists and the value is truthy (present, non-empty). -/
def setText (el : Option String) (txt : Option String) : Option String :=
  match txt with
  | none => el
  | some t =>
    match el with
    | none => none
    | some _ => if t == "" then el else some t

/-- The document state touched by `populateContent`: the six text
placeholders and the four list containers (`none` = element absent). -/
structure Dom where
  heroName : Option String
  heroRole : Option String
  heroTagline : Option String
  aboutBio : Option String
  aboutEmail : Option String
  aboutLocation : Option String
  skillsGrid : Option (List SkillElem)
  projectsGrid : Option (List String)
  contactSocial : Option (List String)
  footerSocial : Option (List String)
deriving DecidableEq

/-- `populateContent` (`src/app.js` lines 223-240).  The guard
`if (!siteData) return` never fires (`{}` and every parsed object are
truthy).  Absent `skills`/`projects`/`socialLinks` hit the `= []`
default parameters.  If `renderProjects` throws, the exception
propagates (Bool `true`) and `renderSocial` is never reached. -/
def populateContent (d : SiteData) (dom : Dom) : Dom × Bool :=
  let dom1 : Dom :=
    { dom with
      heroName := setText dom.heroName d.name,
      heroRole := setText dom.heroRole d.role,
      heroTagline := setText dom.heroTagline d.tagline,
      aboutBio := setText dom.aboutBio d.bio,
      aboutEmail := setText dom.aboutEmail d.email,
      aboutLocation := setText dom.aboutLocation d.location }
  let dom2 : Dom := { dom1 with skillsGrid := renderSkills (d.skills.getD []) dom1.skillsGrid }
  let pr := renderProjects (d.projects.getD []) dom2.projectsGrid
  let dom3 : Dom := { dom2 with projectsGrid := pr.1 }
  if pr.2 then (dom3, true)
  else
    let so := renderSocial (d.socialLinks.getD []) dom3.contactSocial dom3.footerSocial
    ({ dom3 with contactSocial := so.1, footerSocial := so.2 }, false)

/-- Whether the awaited promise of the simulated submission settles
normally or by throwing (the source promise only resolves, but the
`try`/`catch`/`finally` structure supports rejection). -/
inductive SubmitOutcome where
  | resolved
  | rejected
deriving DecidableEq

/-- The form-related document state at a submit event: the three named
fields (`none` = no control with that name, so `formData.get` yields
`null`) and the submit button (`none` = absent; else its label and
disabled flag). -/
structure FormState where
  nameVal : Option String
  emailVal : Option String
  msgVal : Option String
  submitBtn : Option (String × Bool)
deriving DecidableEq

/-- Observable actions of the submit handler, in the order they occur. -/
inductive SubmitEvent where
  | preventDefault
  | showErrors (errs : List (String × String))
  | setBtnText (s : String)
  | setBtnDisabled (b : Bool)
  | waitMs (n : Nat)
  | alertMsg (s : String)
  | formReset
  | logError (s : String)
deriving DecidableEq

def exceptOk {α : Type} : Except Unit α → Bool
  | Except.ok _ => true
  | Except.error _ => false

/-- The submit handler of `setupFormHandling` (`src/app.js` lines
119-148), as a function of the form state and the awaited promise's
outcome.  An `Except.error` models an uncaught throw: `null.trim()` when
a named field is missing, or reading `textContent` of a `null` submit
button.  On success the fields are reset to empty; on rejection they are
left as they were; the `finally` block restores the button either way. -/
def submitHandler (st : FormState) (out : SubmitOutcome) :
    Except Unit (FormState × List SubmitEvent) :=
  match st.nameVal, st.emailVal, st.msgVal with
  | some n0, some e0, some m0 =>
    let n := jsTrimS n0
    let e := jsTrimS e0
    let m := jsTrimS m0
    let v := validateForm n e m
    if v.1 = false then
      Except.ok (st, [SubmitEvent.preventDefault, SubmitEvent.showErrors v.2])
    else
      match st.submitBtn with
      | none => Except.error ()
      | some (originalText, _) =>
        match out with
        | SubmitOutcome.resolved =>
          Except.ok
            ({ st with nameVal := some (""), emailVal := some (""), msgVal := some (""),
                       submitBtn := some (originalText, false) },
             [SubmitEvent.preventDefault,
              SubmitEvent.setBtnText ("Sending…"), SubmitEvent.setBtnDisabled true,
              SubmitEvent.waitMs 800,
              SubmitEvent.alertMsg ("Message sent!"), SubmitEvent.formReset,
              SubmitEvent.setBtnText originalText, SubmitEvent.setBtnDisabled false])
        | SubmitOutcome.rejected =>
          Except.ok
            ({ st with submitBtn := some (originalText, false) },
             [SubmitEvent.preventDefault,
              SubmitEvent.setBtnText ("Sending…"), SubmitEvent.setBtnDisabled true,
              SubmitEvent.logError ("Form submission error"),
              SubmitEvent.alertMsg ("Oops! Something went wrong. Please try again."),
              SubmitEvent.setBtnText originalText, SubmitEvent.setBtnDisabled false])
  | _, _, _ => Except.error ()

/-- One scheduled `setTimeout` of `animateSkillBars`: after `delayMs`
milliseconds, bar `barIndex` gets inline width `newWidth`. -/
structure TimerTask where
  delayMs : Nat
  barIndex : Nat
  newWidth : String
deriving DecidableEq

def animateSkillBarsFrom (i : Nat) : List SkillElem → List TimerTask
  | [] => []
  | bar :: rest =>
    { delayMs := i * 150, barIndex := i, newWidth := bar.dataLevel ++ "%" }
      :: animateSkillBarsFrom (i + 1) rest

/-- `animateSkillBars` (`src/app.js` lines 212-218): for every
`.skill__progress` element, in document order, an independent
fire-and-forget timer with delay `i * 150` ms that sets the bar's width
to its stored `data-level` plus `%`.  Nothing ever cancels these timers. -/
def animateSkillBars (bars : List SkillElem) : List TimerTask :=
  animateSkillBarsFrom 0 bars

/-- The class-list state the script can mutate: one `animate-in` flag
per observed `.section` element, the two nav `active` flags, and the
body `dark-mode` flag. -/
structure PageClassState where
  sectionsAnimateIn : List Bool
  navToggleActive : Bool
  navMenuActive : Bool
  darkMode : Bool
deriving DecidableEq

/-- Every event handler of the script that touches a class list
(`src/app.js` lines 41-95 and 199-210). -/
inductive PageEvent where
  | navToggleClick
  | navLinkClick
  | docClickOutsideNav
  | windowResize (width : Nat)
  | themeToggleClick
  | sectionIntersect (idx : Nat) (isIntersecting : Bool)
deriving DecidableEq

/-- The class-list effect of one event handler.  The observer callback
adds `animate-in` on an intersecting entry; no handler anywhere in the
script removes that class. -/
def pageStep (ev : PageEvent) (st : PageClassState) : PageClassState :=
  match ev with
  | PageEvent.navToggleClick =>
    { st with navToggleActive := !st.navToggleActive, navMenuActive := !st.navMenuActive }
  | PageEvent.navLinkClick =>
    { st with navToggleActive := false, navMenuActive := false }
  | PageEvent.docClickOutsideNav =>
    { st with navToggleActive := false, navMenuActive := false }
  | PageEvent.windowResize w =>
    if w ≥ 768 then { st with navToggleActive := false, navMenuActive := false } else st
  | PageEvent.themeToggleClick =>
    { st with darkMode := !st.darkMode }
  | PageEvent.sectionIntersect idx inter =>
    if inter then { st with sectionsAnimateIn := st.sectionsAnimateIn.set idx true } else st

/-- The options object passed to `scrollIntoView` (`src/app.js`
line 108), as written in the source: note the key is `behaviour`, not
the API's `behavior`. -/
def scrollIntoViewArg : List (String × String) :=
  [("behaviour", "smooth"), ("block", "start")]

def dictLookup (key : String) (opts : List (String × String)) : Option String :=
  (opts.find? (fun kv => kv.1 == key)).map (fun kv => kv.2)

/-- The scroll behavior the DOM API actually uses: the recognized
dictionary member `behavior`, defaulting to `auto` (instant). -/
def effectiveScrollBehavior (opts : List (String × String)) : String :=
  (dictLookup ("behavior") opts).getD ("auto")

/-- The vertical alignment the DOM API actually uses: the `block`
member, defaulting to `start`. -/
def effectiveScrollBlock (opts : List (String × String)) : String :=
  (dictLookup ("block") opts).getD ("start")

/-- Result of one click on an in-page anchor. -/
structure AnchorClickResult where
  prevented : Bool
  scrollCall : Option (String × String)
deriving DecidableEq

/-- The click handler of `setupSmoothScrolling` (`src/app.js` lines
102-109): a missing target returns before `preventDefault`; otherwise
default navigation is cancelled and `scrollIntoView` runs with the
effective (recognized) options of `scrollIntoViewArg`. -/
def anchorClick (targetExists : Bool) : AnchorClickResult :=
  if targetExists then
    { prevented := true,
      scrollCall := some (effectiveScrollBehavior scrollIntoViewArg,
                          effectiveScrollBlock scrollIntoViewArg) }
  else { prevented := false, scrollCall := none }

/-- Sample data (the skills scenario of the specification, a project
record, a social link, a populated document and a filled form) used to
instantiate the theorems below on concrete inputs. -/
def goSkill : Skill := { name := "Go", level := 80 }

def rustSkill : Skill := { name := "Rust", level := 60 }

def sampleSkills : List Skill := [goSkill, rustSkill]

def sampleBars : List SkillElem := [mkSkillElem goSkill, mkSkillElem rustSkill]

def sampleProjectNoTech : Project :=
  { title := "P", description := "d", image := "i", repo := "r", live := "l",
    tech := none }

def sampleProjectTech : Project :=
  { title := "T", description := "D", image := "I", repo := "R", live := "L",
    tech := some ("<a>, <b>") }

def sampleLink : SocialLink :=
  { platform := "GitHub", url := "https://github.com/akhil" }

def sampleSiteData : SiteData :=
  { name := some ("Akhil"), role := some ("Engineer"), tagline := none,
    bio := none, email := none, location := none, skills := some sampleSkills,
    projects := some [sampleProjectTech], socialLinks := some [sampleLink] }

def sampleDom : Dom :=
  { heroName := some ("Your Name"), heroRole := some (""), heroTagline := none,
    aboutBio := some ("bio"), aboutEmail := none, aboutLocation := none,
    skillsGrid := some [], projectsGrid := some [], contactSocial := some [],
    footerSocial := some [] }

def sampleFormState : FormState :=
  { nameVal := some ("Al"), emailVal := some ("al@example.com"),
    msgVal := some ("Hello there!"), submitBtn := some (("Send Message"), false) }

def sampleClassState : PageClassState :=
  { sectionsAnimateIn := [true], navToggleActive := true, navMenuActive := true,
    darkMode := false }

theorem takeWhile_append_of_forall {p : Char → Bool} :
    ∀ (a : List Char) (ch : Char) (r : List Char),
      (∀ x ∈ a, p x = true) → p ch = false →
      (a ++ ch :: r).takeWhile p = a := by
  intro a
  induction a with
  | nil =>
    intro ch r _ hch
    simp [List.takeWhile, hch]
  | cons x xs ih =>
    intro ch r hall hch
    have hx : p x = true := hall x (by simp)
    simp only [List.cons_append, List.takeWhile_cons, hx, if_true]
    rw [ih ch r (fun y hy => hall y (by simp [hy])) hch]

theorem dropWhile_append_of_forall {p : Char → Bool} :
    ∀ (a : List Char) (ch : Char) (r : List Char),
      (∀ x ∈ a, p x = true) → p ch = false →
      (a ++ ch :: r).dropWhile p = ch :: r := by
  intro a
  induction a with
  | nil =>
    intro ch r _ hch
    simp [List.dropWhile, hch]
  | cons x xs ih =>
    intro ch r hall hch
    have hx : p x = true := hall x (by simp)
    simp only [List.cons_append, List.dropWhile_cons, hx, if_true]
    exact ih ch r (fun y hy => hall y (by simp [hy])) hch

theorem mem_takeWhile_sat {p : Char → Bool} :
    ∀ (l : List Char) (x : Char), x ∈ l.takeWhile p → p x = true := by
  intro l
  induction l with
  | nil => intro x hx; simp [List.takeWhile] at hx
  | cons a as ih =>
    intro x hx
    by_cases ha : p a = true
    · simp only [List.takeWhile_cons, ha, if_true, List.mem_cons] at hx
      rcases hx with rfl | hx
      · exact ha
      · exact ih x hx
    · simp only [List.takeWhile_cons] at hx
      rw [Bool.not_eq_true] at ha
      simp [ha] at hx

/-- Forward direction of the inner-dot condition: a domain whose interior
contains a dot splits as `b ++ '.' :: c` with `b`, `c` non-empty. -/
theorem inner_dot_split (d : List Char)
    (h : ((d.drop 1).dropLast.contains '.') = true) :
    ∃ b c : List Char, d = b ++ '.' :: c ∧ b ≠ [] ∧ c ≠ [] := by
  match d with
  | [] => simp [List.contains] at h
  | d0 :: dt =>
    have hmem : '.' ∈ dt.dropLast := by
      have h' : (dt.dropLast.contains '.') = true := by simpa using h
      exact List.mem_of_elem_eq_true h'
    match hdt : dt with
    | [] => simp [hdt] at hmem
    | e :: et =>
      have hne : (e :: et) ≠ [] := by simp
      have hsplit : e :: et = (e :: et).dropLast ++ [(e :: et).getLast hne] :=
        (List.dropLast_append_getLast hne).symm
      rcases List.append_of_mem hmem with ⟨u, v, huv⟩
      refine ⟨d0 :: u, v ++ [(e :: et).getLast hne], ?_, by simp, by simp⟩
      calc d0 :: e :: et
          = d0 :: ((e :: et).dropLast ++ [(e :: et).getLast hne]) := by rw [← hsplit]
        _ = d0 :: ((u ++ '.' :: v) ++ [(e :: et).getLast hne]) := by rw [huv]
        _ = (d0 :: u) ++ '.' :: (v ++ [(e :: et).getLast hne]) := by simp

/-- Backward direction of the inner-dot condition. -/
theorem inner_dot_of_split (b c : List Char) (hb : b ≠ []) (hc : c ≠ []) :
    (((b ++ '.' :: c).drop 1).dropLast.contains '.') = true := by
  match b with
  | [] => exact absurd rfl hb
  | b0 :: bt =>
    rcases List.eq_nil_or_concat c with rfl | ⟨c0, x, rfl⟩
    · exact absurd rfl hc
    · simp only [List.concat_eq_append]
      have hshape : ((b0 :: bt) ++ '.' :: (c0 ++ [x])).drop 1
          = (bt ++ '.' :: c0) ++ [x] := by simp
      rw [hshape, List.dropLast_concat]
      refine List.elem_eq_true_of_mem ?_
      simp

theorem emailRegexMatch_iff (s : List Char) :
    emailRegexMatch s = true ↔ EmailPattern s := by
  constructor
  · intro h
    unfold emailRegexMatch at h
    rcases hd : s.dropWhile isEmailChar with _ | ⟨ch, domain⟩
    · rw [hd] at h; simp at h
    · rw [hd] at h
      simp only [Bool.and_eq_true, beq_iff_eq] at h
      obtain ⟨⟨⟨hch, hne⟩, hall⟩, hdot⟩ := h
      subst hch
      obtain ⟨b, c, hbc, hb, hc⟩ := inner_dot_split domain hdot
      refine ⟨s.takeWhile isEmailChar, b, c, ?_, ?_, hb, hc, ?_, ?_, ?_⟩
      · rw [← hbc]
        conv_lhs => rw [← List.takeWhile_append_dropWhile (p := isEmailChar) (l := s)]
        rw [hd]
      · intro habs
        rw [habs] at hne
        simp at hne
      · exact List.all_eq_true.mpr fun x hx => mem_takeWhile_sat s x hx
      · refine List.all_eq_true.mpr fun x hx => ?_
        have : x ∈ domain := by rw [hbc]; simp [hx]
        exact List.all_eq_true.mp hall x this
      · refine List.all_eq_true.mpr fun x hx => ?_
        have : x ∈ domain := by rw [hbc]; simp [hx]
        exact List.all_eq_true.mp hall x this
  · rintro ⟨a, b, c, rfl, ha, hb, hc, halla, hallb, hallc⟩
    have hat : isEmailChar '@' = false := by decide
    have hdrop := dropWhile_append_of_forall a '@' (b ++ '.' :: c)
      (fun x hx => List.all_eq_true.mp halla x hx) hat
    have htake := takeWhile_append_of_forall a '@' (b ++ '.' :: c)
      (fun x hx => List.all_eq_true.mp halla x hx) hat
    unfold emailRegexMatch
    rw [hdrop, htake]
    simp only [Bool.and_eq_true, beq_iff_eq]
    refine ⟨⟨⟨trivial, ?_⟩, ?_⟩, inner_dot_of_split b c hb hc⟩
    · simpa using ha
    · refine List.all_eq_true.mpr fun x hx => ?_
      rcases List.mem_append.mp hx with hx | hx
      · exact List.all_eq_true.mp hallb x hx
      · rcases List.mem_cons.mp hx with rfl | hx
        · decide
        · exact List.all_eq_true.mp hallc x hx

theorem listStartsWith_iff :
    ∀ (n l : List Char), listStartsWith n l = true ↔ ∃ r, l = n ++ r := by
  intro n
  induction n with
  | nil => intro l; simp [listStartsWith]
  | cons a as ih =>
    intro l
    match l with
    | [] => simp [listStartsWith]
    | b :: bs =>
      simp only [listStartsWith, Bool.and_eq_true, beq_iff_eq, ih bs]
      constructor
      · rintro ⟨rfl, r, rfl⟩; exact ⟨r, rfl⟩
      · rintro ⟨r, hr⟩
        injection hr with h1 h2
        exact ⟨h1.symm, r, h2⟩

theorem hasSubstr_iff :
    ∀ (n l : List Char), hasSubstr n l = true ↔ ∃ p q, l = p ++ n ++ q := by
  intro n l
  induction l with
  | nil =>
    simp only [hasSubstr, List.isEmpty_iff]
    constructor
    · rintro rfl; exact ⟨[], [], rfl⟩
    · rintro ⟨p, q, hpq⟩
      rcases List.append_eq_nil.mp hpq.symm with ⟨h1, h2⟩
      exact (List.append_eq_nil.mp h1).2
  | cons c t ih =>
    simp only [hasSubstr, Bool.or_eq_true, ih, listStartsWith_iff]
    constructor
    · rintro (⟨r, hr⟩ | ⟨p, q, hpq⟩)
      · exact ⟨[], r, by simp [hr]⟩
      · exact ⟨c :: p, q, by simp [hpq]⟩
    · rintro ⟨p, q, hpq⟩
      match p with
      | [] =>
        left
        exact ⟨q, by simpa using hpq⟩
      | d :: ds =>
        right
        injection hpq with h1 h2
        exact ⟨ds, q, h2⟩

theorem string_data_append (s t : String) : (s ++ t).data = s.data ++ t.data := by
  cases s; cases t; rfl

theorem hasSubstr_append_left (a : List Char) {n l : List Char}
    (h : hasSubstr n l = true) : hasSubstr n (a ++ l) = true := by
  rcases (hasSubstr_iff n l).mp h with ⟨p, q, rfl⟩
  exact (hasSubstr_iff n _).mpr ⟨a ++ p, q, by simp⟩

theorem hasSubstr_append_right {n l : List Char} (r : List Char)
    (h : hasSubstr n l = true) : hasSubstr n (l ++ r) = true := by
  rcases (hasSubstr_iff n l).mp h with ⟨p, q, rfl⟩
  exact (hasSubstr_iff n _).mpr ⟨p, q ++ r, by simp⟩

theorem hasSubstr_self_append (n r : List Char) : hasSubstr n (n ++ r) = true :=
  (hasSubstr_iff n _).mpr ⟨[], r, by simp⟩

theorem contains_skip (a : String) {h n : String}
    (hc : ContainsSubstr h n) : ContainsSubstr (a ++ h) n := by
  unfold ContainsSubstr at *
  rw [string_data_append]
  exact hasSubstr_append_left a.data hc

theorem contains_extend {h n : String} (r : String)
    (hc : ContainsSubstr h n) : ContainsSubstr (h ++ r) n := by
  unfold ContainsSubstr at *
  rw [string_data_append]
  exact hasSubstr_append_right r.data hc

theorem contains_head (n r : String) : ContainsSubstr (n ++ r) n := by
  unfold ContainsSubstr
  rw [string_data_append]
  exact hasSubstr_self_append n.data r.data

theorem contains_head2 (x y r : String) : ContainsSubstr (x ++ (y ++ r)) (x ++ y) := by
  unfold ContainsSubstr
  rw [string_data_append, string_data_append, string_data_append,
    ← List.append_assoc]
  exact hasSubstr_self_append (x.data ++ y.data) r.data

theorem string_append_assoc (a b c : String) : (a ++ b) ++ c = a ++ (b ++ c) := by
  cases a with
  | mk da =>
    cases b with
    | mk db =>
      cases c with
      | mk dc =>
        show String.mk ((da ++ db) ++ dc) = String.mk (da ++ (db ++ dc))
        rw [List.append_assoc]

/-- Closed form of `validateForm`: the flag is the conjunction of the
three checks, and the error list holds exactly one specific message per
failing field, in source order. -/
theorem validateForm_eq (n e m : String) :
    validateForm n e m =
      ((!decide (n.length < 2) && (emailRegexMatch e.data && !decide (m.length < 10))),
       (if n.length < 2 then [(("name"), ("Enter at least 2 characters"))] else [])
       ++ ((if emailRegexMatch e.data then []
            else [(("email"), ("Enter a valid email"))])
       ++ (if m.length < 10 then [(("message"), ("Message too short"))] else []))) := by
  unfold validateForm
  by_cases h1 : n.length < 2 <;> by_cases h2 : emailRegexMatch e.data <;>
    by_cases h3 : m.length < 10 <;> simp [h1, h2, h3]

/-- C1: `validateForm` accepts a whitespace-trimmed triple iff the
trimmed name has at least 2 characters, the trimmed email matches the
pattern (a non-whitespace-non-@ run, exactly one `@`, a
non-whitespace-non-@ run, then a dot followed by a non-whitespace-non-@
run), and the trimmed message has at least 10 characters; every rule is
checked on every call (no short-circuit) and each failing field
contributes exactly its one specific error message. -/
theorem c1_validateForm_correct (name email message : String) :
    ((validateForm (jsTrimS name) (jsTrimS email) (jsTrimS message)).1 = true ↔
      (2 ≤ (jsTrimS name).length ∧ EmailPattern ((jsTrimS email).data) ∧
        10 ≤ (jsTrimS message).length)) ∧
    (validateForm (jsTrimS name) (jsTrimS email) (jsTrimS message)).2 =
      (if (jsTrimS name).length < 2 then [(("name"), ("Enter at least 2 characters"))] else [])
      ++ ((if emailRegexMatch ((jsTrimS email).data) then []
           else [(("email"), ("Enter a valid email"))])
      ++ (if (jsTrimS message).length < 10 then [(("message"), ("Message too short"))] else [])) := by
  rw [validateForm_eq]
  refine ⟨?_, rfl⟩
  simp only [Bool.and_eq_true, Bool.not_eq_true', decide_eq_false_iff_not, Nat.not_lt,
    emailRegexMatch_iff]

/-- C2: with malformed embedded JSON, `loadSiteData` logs the parse error
and leaves `siteData = {}`; the subsequent `populateContent` call does
not throw, leaves every text placeholder at its pre-existing value, and
leaves the skills, projects and social containers unpopulated (the
default empty lists clear them and insert nothing); the pipeline is a
single pass with no retry. -/
theorem c2_malformed_json_degrades (dom : Dom) :
    (loadSiteData EmbeddedData.malformed).2 = true ∧
    (populateContent (loadSiteData EmbeddedData.malformed).1 dom).2 = false ∧
    (populateContent (loadSiteData EmbeddedData.malformed).1 dom).1.heroName = dom.heroName ∧
    (populateContent (loadSiteData EmbeddedData.malformed).1 dom).1.heroRole = dom.heroRole ∧
    (populateContent (loadSiteData EmbeddedData.malformed).1 dom).1.heroTagline = dom.heroTagline ∧
    (populateContent (loadSiteData EmbeddedData.malformed).1 dom).1.aboutBio = dom.aboutBio ∧
    (populateContent (loadSiteData EmbeddedData.malformed).1 dom).1.aboutEmail = dom.aboutEmail ∧
    (populateContent (loadSiteData EmbeddedData.malformed).1 dom).1.aboutLocation = dom.aboutLocation ∧
    (populateContent (loadSiteData EmbeddedData.malformed).1 dom).1.skillsGrid =
      dom.skillsGrid.map (fun _ => ([] : List SkillElem)) ∧
    (populateContent (loadSiteData EmbeddedData.malformed).1 dom).1.projectsGrid =
      dom.projectsGrid.map (fun _ => ([] : List String)) ∧
    (populateContent (loadSiteData EmbeddedData.malformed).1 dom).1.contactSocial =
      dom.contactSocial.map (fun _ => ([] : List String)) ∧
    (populateContent (loadSiteData EmbeddedData.malformed).1 dom).1.footerSocial =
      dom.footerSocial.map (fun _ => ([] : List String)) := by
  cases dom with
  | mk a b c d e f sg pg cs fs =>
    cases sg <;> cases pg <;> cases cs <;> cases fs <;>
      simp [populateContent, loadSiteData, emptySiteData, setText, renderSkills,
        renderProjects, renderProjectsGo, renderSocial]

/-- C5: all three renderers clear the target container before inserting,
so a second call with the same data leaves exactly the content of a
single call — no duplicate nodes (this includes the thrown-flag of
`renderProjects` and both social containers). -/
theorem c5_render_idempotent (skills : List Skill) (projects : List Project)
    (links : List SocialLink) (sg : Option (List SkillElem))
    (pg cw fw : Option (List String)) :
    renderSkills skills (renderSkills skills sg) = renderSkills skills sg ∧
    renderProjects projects (renderProjects projects pg).1 = renderProjects projects pg ∧
    renderSocial links (renderSocial links cw fw).1 (renderSocial links cw fw).2 =
      renderSocial links cw fw := by
  refine ⟨?_, ?_, ?_⟩
  · cases sg <;> rfl
  · cases pg <;> rfl
  · cases cw <;> cases fw <;> rfl

/-- C9 (code bug in the source): when the anchor's target exists the
handler cancels default navigation and calls `scrollIntoView`, but the
options object spells the key `behaviour`, which the API does not
recognize, so the effective behavior is the default `auto` (instant),
not the smooth scroll the claim (and the source's own comment) describe;
alignment is `start` (top edge).  A missing target leaves default
navigation unsuppressed and performs no scroll. -/
theorem c9_scroll_misspelled_behavior :
    anchorClick true =
      { prevented := true, scrollCall := some (("auto"), ("start")) } ∧
    effectiveScrollBehavior scrollIntoViewArg ≠ "smooth" ∧
    anchorClick false = { prevented := false, scrollCall := none } := by
  refine ⟨by decide, by decide, by decide⟩

/-- C6: rendering a skill list of length N produces exactly N elements,
in list order; the i-th carries a `data-level` attribute equal to its
source level, displays the text `<level>%` verbatim in its markup, and
has no inline width style at render time (widths are assigned only by
the reveal animation). -/
theorem c6_renderSkills_progress (list : List Skill) (old : List SkillElem)
    (i : Nat) (hi : i < list.length) :
    (renderSkills list (some old)).map (fun l => l.length) = some list.length ∧
    ((renderSkills list (some old)).getD [])[i]? = some (mkSkillElem (list[i])) ∧
    (mkSkillElem (list[i])).dataLevel = toString (list[i]).level ∧
    ContainsSubstr (mkSkillElem (list[i])).markup (toString (list[i]).level ++ "%") ∧
    (mkSkillElem (list[i])).widthStyle = none := by
  refine ⟨?_, ?_, rfl, ?_, rfl⟩
  · simp [renderSkills]
  · simp [renderSkills, List.getElem?_eq_getElem hi]
  · show ContainsSubstr (skillItemHTML (list[i])) (toString (list[i]).level ++ "%")
    unfold skillItemHTML
    apply contains_skip
    apply contains_skip
    apply contains_skip
    exact contains_head2 _ _ _

theorem c6_renderSkills_progress_witness :
    1 < sampleSkills.length ∧
    ((renderSkills sampleSkills (some [])).map (fun l => l.length) = some sampleSkills.length ∧
     ((renderSkills sampleSkills (some [])).getD [])[1]? = some (mkSkillElem rustSkill) ∧
     (mkSkillElem rustSkill).dataLevel = toString rustSkill.level ∧
     ContainsSubstr (mkSkillElem rustSkill).markup (toString rustSkill.level ++ "%") ∧
     (mkSkillElem rustSkill).widthStyle = none) :=
  ⟨by decide, c6_renderSkills_progress sampleSkills [] 1 (by decide)⟩

/-- C3: on a submit event whose trimmed fields pass validation, the
button label becomes `Sending…` and the button is disabled, the 800 ms
simulated wait runs, and on completion a success alert is raised and all
fields reset to empty; if the awaited promise rejects, a failure alert is
raised and the fields keep their values; in both outcomes the `finally`
block restores the original label and re-enables the button. -/
theorem c3_submit_flow (st : FormState) (out : SubmitOutcome)
    (n0 e0 m0 orig : String) (dis : Bool)
    (hn : st.nameVal = some n0) (he : st.emailVal = some e0)
    (hm : st.msgVal = some m0) (hb : st.submitBtn = some (orig, dis))
    (hv : (validateForm (jsTrimS n0) (jsTrimS e0) (jsTrimS m0)).1 = true) :
    (out = SubmitOutcome.resolved →
      submitHandler st out = Except.ok
        ({ st with nameVal := some (""), emailVal := some (""), msgVal := some (""),
                   submitBtn := some (orig, false) },
         [SubmitEvent.preventDefault,
          SubmitEvent.setBtnText ("Sending…"), SubmitEvent.setBtnDisabled true,
          SubmitEvent.waitMs 800,
          SubmitEvent.alertMsg ("Message sent!"), SubmitEvent.formReset,
          SubmitEvent.setBtnText orig, SubmitEvent.setBtnDisabled false])) ∧
    (out = SubmitOutcome.rejected →
      submitHandler st out = Except.ok
        ({ st with submitBtn := some (orig, false) },
         [SubmitEvent.preventDefault,
          SubmitEvent.setBtnText ("Sending…"), SubmitEvent.setBtnDisabled true,
          SubmitEvent.logError ("Form submission error"),
          SubmitEvent.alertMsg ("Oops! Something went wrong. Please try again."),
          SubmitEvent.setBtnText orig, SubmitEvent.setBtnDisabled false])) := by
  constructor <;> rintro rfl <;> simp [submitHandler, hn, he, hm, hb, hv]

theorem c3_submit_flow_witness :
    submitHandler sampleFormState SubmitOutcome.resolved = Except.ok
      ({ sampleFormState with
          nameVal := some (""), emailVal := some (""), msgVal := some (""),
          submitBtn := some (("Send Message"), false) },
       [SubmitEvent.preventDefault,
        SubmitEvent.setBtnText ("Sending…"), SubmitEvent.setBtnDisabled true,
        SubmitEvent.waitMs 800,
        SubmitEvent.alertMsg ("Message sent!"), SubmitEvent.formReset,
        SubmitEvent.setBtnText ("Send Message"), SubmitEvent.setBtnDisabled false]) :=
  (c3_submit_flow sampleFormState SubmitOutcome.resolved ("Al") ("al@example.com")
    ("Hello there!") ("Send Message") false rfl rfl rfl rfl (by decide)).1 rfl

theorem string_eq_of_data (s t : String) (h : s.data = t.data) : s = t := by
  cases s; cases t
  exact congrArg String.mk (by simpa using h)

/-- C4 counterexample: a project record without a `tech` string makes
`renderProjects` throw (`proj.tech.split` on `undefined` is a
`TypeError`, uncaught anywhere on the path), refuting the claim that no
handler or renderer ever raises. -/
theorem c4_counterexample_tech_throws :
    (renderProjects [sampleProjectNoTech] (some [])).2 = true := rfl

/-- C4 (amended): no operation throws provided every project record
carries a `tech` string and the form exposes its three named fields and
a submit control; under those hypotheses `populateContent` completes for
every payload and document, and the submit handler completes for every
submit event and outcome. -/
theorem c4_amended_no_throw (d : SiteData) (dom : Dom) (st : FormState)
    (out : SubmitOutcome)
    (hp : ∀ p ∈ d.projects.getD [], p.tech.isSome = true)
    (hn : st.nameVal.isSome = true) (hee : st.emailVal.isSome = true)
    (hm : st.msgVal.isSome = true) (hb : st.submitBtn.isSome = true) :
    (populateContent d dom).2 = false ∧ exceptOk (submitHandler st out) = true := by
  have hgo : ∀ (l : List Project) (acc : List String),
      (∀ p ∈ l, p.tech.isSome = true) → (renderProjectsGo l acc).2 = false := by
    intro l
    induction l with
    | nil => intro acc _; rfl
    | cons p rest ih =>
      intro acc hall
      have hp0 : p.tech.isSome = true := hall p (by simp)
      rcases ht : p.tech with _ | t
      · rw [ht] at hp0; simp at hp0
      · simp only [renderProjectsGo, ht]
        exact ih _ (fun q hq => hall q (by simp [hq]))
  constructor
  · cases dom with
    | mk a b c dd e f sg pg cs fs =>
      cases pg with
      | none => simp [populateContent, renderProjects]
      | some x => simp [populateContent, renderProjects, hgo (d.projects.getD []) [] hp]
  · rcases hsn : st.nameVal with _ | n0
    · rw [hsn] at hn; simp at hn
    · rcases hse : st.emailVal with _ | e0
      · rw [hse] at hee; simp at hee
      · rcases hsm : st.msgVal with _ | m0
        · rw [hsm] at hm; simp at hm
        · rcases hsb : st.submitBtn with _ | btn
          · rw [hsb] at hb; simp at hb
          · obtain ⟨orig, dis⟩ := btn
            by_cases hv : (validateForm (jsTrimS n0) (jsTrimS e0) (jsTrimS m0)).1 = false
            · simp [submitHandler, hsn, hse, hsm, hv, exceptOk]
            · cases out <;>
                simp [submitHandler, hsn, hse, hsm, hsb, hv, exceptOk]

theorem c4_amended_no_throw_witness :
    (∀ p ∈ sampleSiteData.projects.getD [], p.tech.isSome = true) ∧
    ((populateContent sampleSiteData sampleDom).2 = false ∧
     exceptOk (submitHandler sampleFormState SubmitOutcome.resolved) = true) :=
  ⟨by decide, c4_amended_no_throw sampleSiteData sampleDom sampleFormState
    SubmitOutcome.resolved (by decide) (by decide) (by decide) (by decide) (by decide)⟩

/-- C7 counterexample: `map[platform] || '🔗'` is an object-literal
lookup that consults the prototype chain, so the `Object.prototype`
member name `toString` yields the inherited function (truthy) rather
than the generic glyph; and the markup inserted into the contact and
footer containers differs in the anchor class, so the two renderings are
not literally identical. -/
theorem c7_counterexample_proto_lookup :
    getSocialIcon ("toString") ≠ JsValue.str ("🔗") ∧
    socialItemHTML false sampleLink ≠ socialItemHTML true sampleLink := by
  refine ⟨by decide, by decide⟩

/-- C7 (amended): the four table names map to their icons by exact
match; any other platform string that is neither an inherited
`Object.prototype` function member (the seven standard members or the
four Annex B legacy members of browser hosts) nor `__proto__` maps to
the generic link glyph; an inherited function-member name (such as
`toString` or `__defineGetter__`) maps to the inherited member and
`__proto__` maps to the inherited `Object.prototype` object, both
skipping the `||` fallback; and both containers are filled from the same
list in the same order, the per-item markup identical except for the
container-specific anchor class. -/
theorem c7_amended_icon_lookup (p : String) (links : List SocialLink)
    (cw fw : List String) (b : Bool) (l : SocialLink)
    (hq : p ∉ [("GitHub" : String), "LinkedIn", "Twitter", "Instagram"])
    (hproto : objectPrototypeProps.contains p = false)
    (hup : p ≠ "__proto__") :
    getSocialIcon ("GitHub") = JsValue.str ("🐱") ∧
    getSocialIcon ("LinkedIn") = JsValue.str ("💼") ∧
    getSocialIcon ("Twitter") = JsValue.str ("🐦") ∧
    getSocialIcon ("Instagram") = JsValue.str ("📷") ∧
    getSocialIcon p = JsValue.str ("🔗") ∧
    getSocialIcon ("toString") = JsValue.protoMember ("toString") ∧
    getSocialIcon ("__defineGetter__") = JsValue.protoMember ("__defineGetter__") ∧
    getSocialIcon ("__proto__") = JsValue.protoObject ∧
    renderSocial links (some cw) (some fw) =
      (some (links.map (socialItemHTML false)), some (links.map (socialItemHTML true))) ∧
    socialItemHTML b l = socialItemFront l ++ (socialLinkClass b ++ socialItemBack l) := by
  refine ⟨by decide, by decide, by decide, by decide, ?_, by decide, by decide,
    by decide, rfl, ?_⟩
  · obtain ⟨h1, h2, h3, h4⟩ :
        p ≠ "GitHub" ∧ p ≠ "LinkedIn" ∧ p ≠ "Twitter" ∧ p ≠ "Instagram" := by
      simpa using hq
    have e1 : (("GitHub" : String) == p) = false := beq_eq_false_iff_ne.mpr (Ne.symm h1)
    have e2 : (("LinkedIn" : String) == p) = false := beq_eq_false_iff_ne.mpr (Ne.symm h2)
    have e3 : (("Twitter" : String) == p) = false := beq_eq_false_iff_ne.mpr (Ne.symm h3)
    have e4 : (("Instagram" : String) == p) = false := beq_eq_false_iff_ne.mpr (Ne.symm h4)
    have e5 : (p == "__proto__") = false := beq_eq_false_iff_ne.mpr hup
    have hmem : p ∉ objectPrototypeProps := by
      intro hm
      have he := List.elem_eq_true_of_mem hm
      rw [show objectPrototypeProps.elem p = objectPrototypeProps.contains p from rfl,
        hproto] at he
      exact Bool.noConfusion he
    unfold getSocialIcon
    simp [socialIconOwn, List.find?, e1, e2, e3, e4, e5, hproto, hmem]
  · cases b <;>
      (apply string_eq_of_data
       simp [socialItemHTML, socialItemFront, socialItemBack, socialLinkClass,
         string_data_append])

theorem c7_amended_icon_lookup_witness :
    ((("Dev.to" : String) ∉ [("GitHub" : String), "LinkedIn", "Twitter", "Instagram"]) ∧
     objectPrototypeProps.contains ("Dev.to") = false ∧
     ("Dev.to" : String) ≠ "__proto__") ∧
    (getSocialIcon ("GitHub") = JsValue.str ("🐱") ∧
     getSocialIcon ("LinkedIn") = JsValue.str ("💼") ∧
     getSocialIcon ("Twitter") = JsValue.str ("🐦") ∧
     getSocialIcon ("Instagram") = JsValue.str ("📷") ∧
     getSocialIcon ("Dev.to") = JsValue.str ("🔗") ∧
     getSocialIcon ("toString") = JsValue.protoMember ("toString") ∧
     getSocialIcon ("__defineGetter__") = JsValue.protoMember ("__defineGetter__") ∧
     getSocialIcon ("__proto__") = JsValue.protoObject ∧
     renderSocial [sampleLink] (some []) (some []) =
       (some ([sampleLink].map (socialItemHTML false)),
        some ([sampleLink].map (socialItemHTML true))) ∧
     socialItemHTML false sampleLink =
       socialItemFront sampleLink ++ (socialLinkClass false ++ socialItemBack sampleLink)) :=
  ⟨⟨by decide, by decide, by decide⟩,
   c7_amended_icon_lookup ("Dev.to") [sampleLink] [] [] false sampleLink
     (by decide) (by decide) (by decide)⟩

theorem animateSkillBarsFrom_length (bars : List SkillElem) :
    ∀ k, (animateSkillBarsFrom k bars).length = bars.length := by
  induction bars with
  | nil => intro k; rfl
  | cons b rest ih => intro k; simp [animateSkillBarsFrom, ih]

theorem animateSkillBarsFrom_getElem (bars : List SkillElem) :
    ∀ k i, (animateSkillBarsFrom k bars)[i]? =
      (bars[i]?).map fun bar =>
        ({ delayMs := (k + i) * 150, barIndex := k + i,
           newWidth := bar.dataLevel ++ "%" } : TimerTask) := by
  induction bars with
  | nil => intro k i; simp [animateSkillBarsFrom]
  | cons b rest ih =>
    intro k i
    cases i with
    | zero => simp [animateSkillBarsFrom]
    | succ j =>
      have hk : k + 1 + j = k + (j + 1) := by omega
      simp only [animateSkillBarsFrom, List.getElem?_cons_succ, ih (k + 1) j, hk]

theorem set_true_preserves (l : List Bool) :
    ∀ (idx j : Nat), l[j]? = some true → (l.set idx true)[j]? = some true := by
  induction l with
  | nil => intro idx j h; simp at h
  | cons x xs ih =>
    intro idx j h
    cases idx with
    | zero =>
      cases j with
      | zero => simp
      | succ j' => simpa using h
    | succ idx' =>
      cases j with
      | zero => simpa using h
      | succ j' =>
        simp only [List.set_cons_succ, List.getElem?_cons_succ] at h ⊢
        exact ih idx' j' h

/-- C8: when the skills section is revealed, the i-th progress-fill
element (document order) is scheduled by its own fire-and-forget timer
at delay i·150 ms (first at 0 ms, second at 150 ms, …) to take its
stored target width `data-level%`; and the `animate-in` marker a section
carries is preserved by every handler of the script — no step ever
removes it. -/
theorem c8_stagger_and_persistence (bars : List SkillElem) (i : Nat)
    (hi : i < bars.length) (ev : PageEvent) (st : PageClassState) (j : Nat)
    (hj : st.sectionsAnimateIn[j]? = some true) :
    (animateSkillBars bars).length = bars.length ∧
    (animateSkillBars bars)[i]? =
      some { delayMs := i * 150, barIndex := i,
             newWidth := (bars[i]).dataLevel ++ "%" } ∧
    (pageStep ev st).sectionsAnimateIn[j]? = some true := by
  refine ⟨animateSkillBarsFrom_length bars 0, ?_, ?_⟩
  · rw [animateSkillBars, animateSkillBarsFrom_getElem bars 0 i]
    simp [List.getElem?_eq_getElem hi]
  · cases ev with
    | navToggleClick => simpa [pageStep] using hj
    | navLinkClick => simpa [pageStep] using hj
    | docClickOutsideNav => simpa [pageStep] using hj
    | windowResize w =>
      by_cases hw : w ≥ 768 <;> simp [pageStep, hw, hj]
    | themeToggleClick => simpa [pageStep] using hj
    | sectionIntersect idx inter =>
      cases inter with
      | false => simpa [pageStep] using hj
      | true =>
        simpa [pageStep] using set_true_preserves st.sectionsAnimateIn idx j hj

theorem c8_stagger_and_persistence_witness :
    (1 < sampleBars.length ∧ sampleClassState.sectionsAnimateIn[0]? = some true) ∧
    ((animateSkillBars sampleBars).length = sampleBars.length ∧
     (animateSkillBars sampleBars)[1]? =
       some { delayMs := 1 * 150, barIndex := 1,
              newWidth := (mkSkillElem rustSkill).dataLevel ++ "%" } ∧
     (pageStep PageEvent.navLinkClick sampleClassState).sectionsAnimateIn[0]? =
       some true) :=
  ⟨⟨by decide, by decide⟩,
   c8_stagger_and_persistence sampleBars 1 (by decide) PageEvent.navLinkClick
     sampleClassState 0 (by decide)⟩

theorem joinAll_tag_contains :
    ∀ (parts : List String) (tag : String), tag ∈ parts →
      ContainsSubstr
        (joinAll (parts.map fun t => techTagSpanL ++ (jsTrimS t ++ techTagSpanR)))
        (jsTrimS tag) := by
  intro parts
  induction parts with
  | nil => intro tag h; simp at h
  | cons x xs ih =>
    intro tag h
    rcases List.mem_cons.mp h with rfl | hmem
    · show ContainsSubstr ((techTagSpanL ++ (jsTrimS tag ++ techTagSpanR)) ++
        joinAll (xs.map fun t => techTagSpanL ++ (jsTrimS t ++ techTagSpanR)))
        (jsTrimS tag)
      exact contains_extend _ (contains_skip _ (contains_head _ _))
    · show ContainsSubstr ((techTagSpanL ++ (jsTrimS x ++ techTagSpanR)) ++
        joinAll (xs.map fun t => techTagSpanL ++ (jsTrimS t ++ techTagSpanR)))
        (jsTrimS tag)
      exact contains_skip _ (ih tag hmem)

/-- C10 (amended): the renderers escape nothing — the skill name, the
project title, description, image, repo and live fields, every trimmed
comma-separated tech tag, and the social platform and url are
interpolated verbatim, character for character, into the inserted
markup; the tech string as a whole, however, is split on commas with
each tag trimmed, so it is not itself inserted verbatim when it contains
a comma or whitespace-padded tags. -/
theorem c10_verbatim_interpolation (s : Skill) (p : Project) (t tag : String)
    (l : SocialLink) (b : Bool) (htag : tag ∈ jsSplitComma t) :
    ContainsSubstr (skillItemHTML s) s.name ∧
    ContainsSubstr (projectItemHTML p t) p.title ∧
    ContainsSubstr (projectItemHTML p t) p.description ∧
    ContainsSubstr (projectItemHTML p t) p.image ∧
    ContainsSubstr (projectItemHTML p t) p.repo ∧
    ContainsSubstr (projectItemHTML p t) p.live ∧
    ContainsSubstr (projectItemHTML p t) (jsTrimS tag) ∧
    ContainsSubstr (socialItemHTML b l) l.platform ∧
    ContainsSubstr (socialItemHTML b l) l.url := by
  refine ⟨?_, ?_, ?_, ?_, ?_, ?_, ?_, ?_, ?_⟩
  · unfold skillItemHTML
    exact contains_skip _ (contains_head _ _)
  · unfold projectItemHTML
    exact contains_skip _ (contains_skip _ (contains_skip _ (contains_head _ _)))
  · unfold projectItemHTML
    exact contains_skip _ (contains_skip _ (contains_skip _ (contains_skip _
      (contains_skip _ (contains_skip _ (contains_skip _ (contains_head _ _)))))))
  · unfold projectItemHTML
    exact contains_skip _ (contains_head _ _)
  · unfold projectItemHTML
    exact contains_skip _ (contains_skip _ (contains_skip _ (contains_skip _
      (contains_skip _ (contains_skip _ (contains_skip _ (contains_skip _
      (contains_skip _ (contains_skip _ (contains_skip _ (contains_head _ _)))))))))))
  · unfold projectItemHTML
    exact contains_skip _ (contains_skip _ (contains_skip _ (contains_skip _
      (contains_skip _ (contains_skip _ (contains_skip _ (contains_skip _
      (contains_skip _ (contains_skip _ (contains_skip _ (contains_skip _
      (contains_skip _ (contains_head _ _)))))))))))))
  · unfold projectItemHTML projectTagsHTML
    exact contains_skip _ (contains_skip _ (contains_skip _ (contains_skip _
      (contains_skip _ (contains_skip _ (contains_skip _ (contains_skip _
      (contains_skip _ (contains_extend _ (joinAll_tag_contains (jsSplitComma t) tag htag))))))))))
  · unfold socialItemHTML
    exact contains_skip _ (contains_skip _ (contains_skip _ (contains_skip _
      (contains_skip _ (contains_skip _ (contains_skip _ (contains_head _ _)))))))
  · unfold socialItemHTML
    exact contains_skip _ (contains_head _ _)

set_option maxRecDepth 100000 in
/-- C10 counterexample: a `tech` value containing a comma and HTML
metacharacters is not inserted verbatim — the comma split and per-tag
trim reassemble it as separate spans, so the raw field text does not
occur in the markup. -/
theorem c10_counterexample_tech_not_verbatim :
    ¬ ContainsSubstr (projectItemHTML sampleProjectTech ("<a>, <b>")) ("<a>, <b>") := by
  unfold ContainsSubstr
  decide

theorem c10_verbatim_interpolation_witness :
    (("Go" : String) ∈ jsSplitComma ("Go")) ∧
    (ContainsSubstr (skillItemHTML goSkill) goSkill.name ∧
     ContainsSubstr (projectItemHTML sampleProjectTech ("Go")) sampleProjectTech.title ∧
     ContainsSubstr (projectItemHTML sampleProjectTech ("Go")) sampleProjectTech.description ∧
     ContainsSubstr (projectItemHTML sampleProjectTech ("Go")) sampleProjectTech.image ∧
     ContainsSubstr (projectItemHTML sampleProjectTech ("Go")) sampleProjectTech.repo ∧
     ContainsSubstr (projectItemHTML sampleProjectTech ("Go")) sampleProjectTech.live ∧
     ContainsSubstr (projectItemHTML sampleProjectTech ("Go")) (jsTrimS ("Go")) ∧
     ContainsSubstr (socialItemHTML false sampleLink) sampleLink.platform ∧
     ContainsSubstr (socialItemHTML false sampleLink) sampleLink.url) :=
  ⟨by decide,
   c10_verbatim_interpolation goSkill sampleProjectTech ("Go") ("Go") sampleLink false
     (by decide)⟩
